import Mathlib

/-!
A shallow embedding of `src/FreeRTOS/portable/MemMang/heap_777.c`, a fixed-arena
size-classed pool allocator (`pvPortMalloc` / `vPortFree` / `xPortPoolInit` /
`prvHeapInit`), together with proofs about the claims of the specification.

Modelling conventions:
* `size_t` values and pointers are modelled as `Nat`.  All quantities handled by
  the code in the regimes the claims concern (class sizes up to 1000, heap sizes
  in the tens of kilobytes) are far below `2^32`, so `Nat` arithmetic coincides
  with the C `size_t` arithmetic there.
* Addresses are absolute byte offsets; the heap array `ucHeap` starts at
  `heapBase` and ends at `heapBase + totalHeapSize`.
* `portBYTE_ALIGNMENT` is a power of two in every FreeRTOS port, so the C
  bit-mask computations `x & portBYTE_ALIGNMENT_MASK` and
  `x & ~portBYTE_ALIGNMENT_MASK` are embedded as `x % align` and
  `x - x % align`.
* The per-class singly linked free list (`Pool_t.pxFirstFree` chained through
  `Block_t.pxNext`) is embedded as a `List Nat` of block start addresses, head
  first; pushing at the head and popping the head translate the two pointer
  updates of the C code.
* The `pxPool` field that line 237 of the source writes into a freshly carved
  block header is embedded as an association list `owner` from block start
  address to pool index (most recent write first); `vPortFree`'s read of
  `pxLink->pxPool` is a lookup in that list.  A lookup miss corresponds to
  dereferencing a header that was never written — undefined behavior in C —
  and is flagged by the `ub` field of the result.
* The never-invoked coalescing machinery (`xStart`, `xEnd`,
  `prvInsertBlockIntoFreeList`, the `BlockLink_t` writes of `prvHeapInit`) only
  touches state that the pool allocation path never reads, and is omitted.
* Calls to the external collaborators `vTaskSuspendAll`, `xTaskResumeAll` and
  `vApplicationMallocFailedHook` are recorded as an event trace in the order
  the code performs them.
* The `live` field of the state is a ghost variable recording the outstanding
  payload pointers together with the pool index selected by the allocation that
  returned them; it is needed to state the accounting and ownership claims and
  is touched by no admission decision of the code.
-/

namespace HeapPool

/-- Static configuration consumed by the allocator: `configTOTAL_HEAP_SIZE`,
`portBYTE_ALIGNMENT`, `sizeof(Block_t)`, the address of `ucHeap`, and
`configUSE_MALLOC_FAILED_HOOK`. -/
structure Config where
  totalHeapSize : Nat
  align : Nat
  sizeofBlock : Nat
  heapBase : Nat
  mallocFailedHook : Bool
deriving DecidableEq, Repr

/-- `heapSTRUCT_SIZE = (sizeof(Block_t) + (portBYTE_ALIGNMENT - 1)) & ~portBYTE_ALIGNMENT_MASK`:
`sizeof(Block_t)` rounded up to the alignment boundary. -/
def heapSTRUCT_SIZE (cfg : Config) : Nat :=
  (cfg.sizeofBlock + (cfg.align - 1)) - (cfg.sizeofBlock + (cfg.align - 1)) % cfg.align

/-- `configADJUSTED_HEAP_SIZE = configTOTAL_HEAP_SIZE - portBYTE_ALIGNMENT`. -/
def configADJUSTED_HEAP_SIZE (cfg : Config) : Nat :=
  cfg.totalHeapSize - cfg.align

/-- One-past-the-end address of the heap array `ucHeap`. -/
def arenaEnd (cfg : Config) : Nat :=
  cfg.heapBase + cfg.totalHeapSize

/-- `pucAlignedHeap = (&ucHeap[portBYTE_ALIGNMENT]) & ~portBYTE_ALIGNMENT_MASK`
(from `prvHeapInit`). -/
def pucAlignedHeap (cfg : Config) : Nat :=
  (cfg.heapBase + cfg.align) - (cfg.heapBase + cfg.align) % cfg.align

def heapMAXIMUM_POOL_NUM : Nat := 10

/-- `const size_t xSizeList[heapMAXIMUM_POOL_NUM]`. -/
def xSizeList : List Nat := [100, 150, 200, 250, 300, 350, 400, 450, 500, 1000]

/-- One entry of the `xPool` array: the class block size and its free list
(block start addresses, `pxFirstFree` first). -/
structure Pool where
  pxFirstFree : List Nat
  xBlockSize : Nat
deriving DecidableEq, Repr

instance : Inhabited Pool := ⟨⟨[], 0⟩⟩

/-- Calls the allocator makes to its external collaborators, in order. -/
inductive Event where
  | suspendAll
  | resumeAll
  | mallocFailedHookCall
deriving DecidableEq, Repr

/-- The global state of `heap_777.c` relevant to the pool allocation path,
plus the ghost `live` list. -/
structure HeapState where
  xHeapHasBeenInitialised : Bool
  xPoolHasBeenInitialised : Bool
  xPool : List Pool
  pxFreeHeap : Nat
  xFreeBytesRemaining : Nat
  owner : List (Nat × Nat)
  live : List (Nat × Nat)
deriving DecidableEq, Repr

/-- The C globals before any call: flags false, `xPool` zero-initialised,
`pxFreeHeap = NULL`, `xFreeBytesRemaining = configADJUSTED_HEAP_SIZE`. -/
def initialState (cfg : Config) : HeapState :=
  { xHeapHasBeenInitialised := false
    xPoolHasBeenInitialised := false
    xPool := List.replicate heapMAXIMUM_POOL_NUM default
    pxFreeHeap := 0
    xFreeBytesRemaining := configADJUSTED_HEAP_SIZE cfg
    owner := []
    live := [] }

/-- `prvHeapInit` (pool-relevant part): set the carve cursor `pxFreeHeap` to the
aligned start of the heap.  The `xStart`/`xEnd`/first-block writes feed only the
unused coalescing list and are omitted. -/
def prvHeapInit (cfg : Config) (s : HeapState) : HeapState :=
  { s with pxFreeHeap := pucAlignedHeap cfg }

/-- `xPortPoolInit`: reject when already initialised (returns `pdFALSE`),
otherwise lazily initialise the heap, then set every class's free list to NULL
and copy `pxSizeList[i]` into `xPool[i].xBlockSize` for `i < 10`.
`getD i 0` models the C array read `*(pxSizeList + i)`. -/
def xPortPoolInit (cfg : Config) (s : HeapState) (pxSizeList : List Nat) :
    Bool × HeapState :=
  if s.xPoolHasBeenInitialised then (false, s)
  else
    let s1 := if s.xHeapHasBeenInitialised then s
              else { prvHeapInit cfg s with xHeapHasBeenInitialised := true }
    (true,
      { s1 with
        xPool := (List.range heapMAXIMUM_POOL_NUM).map
          (fun i => { pxFirstFree := [], xBlockSize := pxSizeList.getD i 0 })
        xPoolHasBeenInitialised := true })

/-- The lazy-initialisation block at the top of `pvPortMalloc`:
`prvHeapInit(); xHeapHasBeenInitialised = pdTRUE; xPortPoolInit(xSizeList);`. -/
def lazyInit (cfg : Config) (s : HeapState) : HeapState :=
  if s.xHeapHasBeenInitialised then s
  else (xPortPoolInit cfg { prvHeapInit cfg s with xHeapHasBeenInitialised := true }
          xSizeList).2

/-- The best-fit scan over the class sizes:
`for (iter = 0; iter < 10; ++iter) if (xPool[iter].xBlockSize >= xWantedSize) { xWantedSize = xPool[iter].xBlockSize; break; }`.
Returns the final `iter` and `xWantedSize`.  When no class fits the loop exits
with `iter` one past the last index and `xWantedSize` unchanged. -/
def bestFit : List Nat → Nat → Nat → Nat × Nat
  | [], iter, w => (iter, w)
  | bs :: rest, iter, w =>
      if w ≤ bs then (iter, bs) else bestFit rest (iter + 1) w

/-- The alignment fix-up
`if ((xWantedSize & portBYTE_ALIGNMENT_MASK) != 0) xWantedSize += (portBYTE_ALIGNMENT - (xWantedSize & portBYTE_ALIGNMENT_MASK));`. -/
def alignUp (cfg : Config) (w : Nat) : Nat :=
  if w % cfg.align ≠ 0 then w + (cfg.align - w % cfg.align) else w

/-- The size-adjustment block of `pvPortMalloc` (source lines 200–218): for a
positive request, the best-fit scan, then `xWantedSize += heapSTRUCT_SIZE`, then
rounding up to the alignment boundary.  For a zero request the whole block is
skipped, leaving `iter = 0` and `xWantedSize = 0`.  Returns `(iter, adjusted)`. -/
def adjustWanted (cfg : Config) (sizes : List Nat) (xWantedSize : Nat) : Nat × Nat :=
  if 0 < xWantedSize then
    let r := bestFit sizes 0 xWantedSize
    (r.1, alignUp cfg (r.2 + heapSTRUCT_SIZE cfg))
  else (0, xWantedSize)

/-- The final `iter` of the best-fit loop inside `pvPortMalloc`, as a function
of the (lazily initialised) state and the requested size. -/
def mallocIter (cfg : Config) (s : HeapState) (sz : Nat) : Nat :=
  (adjustWanted cfg (s.xPool.map Pool.xBlockSize) sz).1

/-- The adjusted `xWantedSize` inside `pvPortMalloc` (class size plus
`heapSTRUCT_SIZE`, rounded up to the alignment boundary), as a function of the
(lazily initialised) state and the requested size. -/
def mallocAdj (cfg : Config) (s : HeapState) (sz : Nat) : Nat :=
  (adjustWanted cfg (s.xPool.map Pool.xBlockSize) sz).2

/-- Result of one `pvPortMalloc` call: the returned pointer (`none` = NULL), the
state after the call, the external-collaborator events in order, and whether the
call performed an out-of-bounds `xPool` access (undefined behavior). -/
structure MallocResult where
  pvReturn : Option Nat
  state : HeapState
  events : List Event
  ub : Bool
deriving DecidableEq, Repr

/-- `pvPortMalloc`.  After lazy initialisation and size adjustment the admission
check is `(xWantedSize > 0) && (xWantedSize < xFreeBytesRemaining)`; inside it
the code reads `xPool[iter]`, which is out of bounds when the best-fit loop
found no class (`iter = 10`) — flagged as `ub`.  Otherwise it pops the free
list head if there is one, or carves at `pxFreeHeap` (writing the owning pool
into the new header and advancing the cursor by the adjusted size, with no
arena-bound check), and finally subtracts the class's nominal `xBlockSize` from
`xFreeBytesRemaining`.  The failure hook runs after `xTaskResumeAll`, only when
the returned pointer is NULL. -/
def pvPortMalloc (cfg : Config) (s0 : HeapState) (xWantedSize : Nat) : MallocResult :=
  let s1 := lazyInit cfg s0
  let hs := heapSTRUCT_SIZE cfg
  let iter := mallocIter cfg s1 xWantedSize
  let w := mallocAdj cfg s1 xWantedSize
  if 0 < w ∧ w < s1.xFreeBytesRemaining then
    if iter < s1.xPool.length then
      let pool := s1.xPool.getD iter default
      match pool.pxFirstFree with
      | b :: rest =>
          let pv := b + hs
          { pvReturn := some pv
            state :=
              { s1 with
                xPool := s1.xPool.set iter { pool with pxFirstFree := rest }
                xFreeBytesRemaining := s1.xFreeBytesRemaining - pool.xBlockSize
                live := (pv, iter) :: s1.live }
            events := [.suspendAll, .resumeAll]
            ub := false }
      | [] =>
          let pv := s1.pxFreeHeap + hs
          { pvReturn := some pv
            state :=
              { s1 with
                owner := (s1.pxFreeHeap, iter) :: s1.owner
                pxFreeHeap := s1.pxFreeHeap + w
                xFreeBytesRemaining := s1.xFreeBytesRemaining - pool.xBlockSize
                live := (pv, iter) :: s1.live }
            events := [.suspendAll, .resumeAll]
            ub := false }
    else
      { pvReturn := none, state := s1, events := [.suspendAll, .resumeAll], ub := true }
  else
    { pvReturn := none
      state := s1
      events := [.suspendAll, .resumeAll] ++
        (if cfg.mallocFailedHook then [.mallocFailedHookCall] else [])
      ub := false }

/-- Result of one `vPortFree` call. -/
structure FreeResult where
  state : HeapState
  ub : Bool
deriving DecidableEq, Repr

/-- `vPortFree`: NULL is a no-op; otherwise step back over the header, read the
header's `pxPool` field, push the block at the head of that pool's free list
(`pxLink->pxNext = head; head = pxLink`), and add the pool's nominal
`xBlockSize` to `xFreeBytesRemaining`.  A pointer whose header was never
written by a carve dereferences garbage — undefined behavior, flagged `ub`. -/
def vPortFree (cfg : Config) (s : HeapState) (pv : Option Nat) : FreeResult :=
  match pv with
  | none => { state := s, ub := false }
  | some p =>
      let b := p - heapSTRUCT_SIZE cfg
      match List.lookup b s.owner with
      | some i =>
          let pool := s.xPool.getD i default
          { state :=
              { s with
                xPool := s.xPool.set i { pool with pxFirstFree := b :: pool.pxFirstFree }
                xFreeBytesRemaining := s.xFreeBytesRemaining + pool.xBlockSize
                live := s.live.eraseP (fun pc => pc.1 == p) }
            ub := false }
      | none => { state := s, ub := true }

/-- `xPortGetFreeHeapSize`. -/
def xPortGetFreeHeapSize (s : HeapState) : Nat :=
  s.xFreeBytesRemaining

/-- One user-level operation on the allocator. -/
inductive Op where
  | alloc (sz : Nat)
  | free (p : Nat)
deriving DecidableEq, Repr

/-- The state after one operation. -/
def stepOp (cfg : Config) (s : HeapState) : Op → HeapState
  | .alloc sz => (pvPortMalloc cfg s sz).state
  | .free p => (vPortFree cfg s (some p)).state

/-- The state after a sequence of operations. -/
def runOps (cfg : Config) (s : HeapState) (ops : List Op) : HeapState :=
  ops.foldl (stepOp cfg) s

/-- An operation is valid when it does not run into undefined behavior: an
allocation must not reach the out-of-bounds pool access, and a free must
release a currently outstanding pointer. -/
def validStep (cfg : Config) (s : HeapState) : Op → Bool
  | .alloc sz => !(pvPortMalloc cfg s sz).ub
  | .free p => s.live.any (fun pc => pc.1 == p)

/-- Validity of a whole operation sequence, threaded through the states. -/
def validTrace (cfg : Config) (s : HeapState) : List Op → Bool
  | [] => true
  | op :: ops => validStep cfg s op && validTrace cfg (stepOp cfg s op) ops

/-- The state right after lazy initialisation (first-call path of
`pvPortMalloc` before any allocation work). -/
def readyState (cfg : Config) : HeapState :=
  lazyInit cfg (initialState cfg)

/-- Well-formedness of the static configuration: every FreeRTOS port has a
positive (power-of-two) `portBYTE_ALIGNMENT`, and `Block_t` holds two pointers,
so its size is positive. -/
def Config.WF (cfg : Config) : Prop :=
  0 < cfg.align ∧ 0 < cfg.sizeofBlock

/-- The amount by which an allocation that handed out this `live` entry
decremented `xFreeBytesRemaining`: the nominal block size of the selected
class. -/
def chargeOf (pc : Nat × Nat) : Nat :=
  xSizeList.getD pc.2 0

/-- Total advisory-counter charge of a list of outstanding blocks. -/
def chargeSum (l : List (Nat × Nat)) : Nat :=
  (l.map chargeOf).sum

/-- The allocator's state invariant, established by initialisation and
preserved by every valid `pvPortMalloc` / `vPortFree` call. -/
structure Inv (cfg : Config) (s : HeapState) : Prop where
  hInit : s.xHeapHasBeenInitialised = true
  pInit : s.xPoolHasBeenInitialised = true
  sizes : s.xPool.map Pool.xBlockSize = xSizeList
  cursorAligned : s.pxFreeHeap % cfg.align = 0
  ownerFresh : ∀ a c, (a, c) ∈ s.owner → a < s.pxFreeHeap
  liveOwner : ∀ p c, (p, c) ∈ s.live →
    heapSTRUCT_SIZE cfg ≤ p ∧ (p - heapSTRUCT_SIZE cfg) % cfg.align = 0 ∧
    List.lookup (p - heapSTRUCT_SIZE cfg) s.owner = some c ∧ c < heapMAXIMUM_POOL_NUM
  freeOwner : ∀ i, i < heapMAXIMUM_POOL_NUM →
    ∀ b ∈ (s.xPool.getD i default).pxFirstFree,
      List.lookup b s.owner = some i ∧ b % cfg.align = 0
  acct : s.xFreeBytesRemaining + chargeSum s.live = configADJUSTED_HEAP_SIZE cfg

/-- A small concrete configuration used by the concrete runs: a 1008-byte heap
on an 8-byte-aligned 32-bit port (`configADJUSTED_HEAP_SIZE = 1000`,
`heapSTRUCT_SIZE = 8`), failure hook configured. -/
def cfgA : Config :=
  { totalHeapSize := 1008, align := 8, sizeofBlock := 8, heapBase := 0
    mallocFailedHook := true }

/-- A larger concrete configuration (25608-byte heap, adjusted size 25600),
used where the advisory counter must exceed the adjusted size of an oversized
request. -/
def cfgBig : Config :=
  { totalHeapSize := 25608, align := 8, sizeofBlock := 8, heapBase := 0
    mallocFailedHook := true }

/-- Eight allocations of 100 bytes from a fresh 1008-byte heap: each carve
consumes 112 bytes (100 + 8 header, aligned), so the cursor reaches 904 and
only 104 bytes of arena remain — not enough for another class-100 carve. -/
def exhaustedState : HeapState :=
  runOps cfgA (readyState cfgA) (List.replicate 8 (Op.alloc 100))

/-! ### Helper lemmas: association-list lookup, `List.set`, alignment -/

theorem lookup_cons (a k c : Nat) (l : List (Nat × Nat)) :
    List.lookup a ((k, c) :: l) = if a = k then some c else List.lookup a l := by
  by_cases h : a = k
  · subst h
    simp [List.lookup]
  · have hb : (a == k) = false := beq_eq_false_iff_ne.2 h
    simp [List.lookup, hb, h]

theorem mem_of_lookup {l : List (Nat × Nat)} {a c : Nat}
    (h : List.lookup a l = some c) : (a, c) ∈ l := by
  rcases List.lookup_eq_some_iff.1 h with ⟨l₁, l₂, rfl, -⟩
  simp

theorem getD_set_self {α : Type} {l : List α} {i : Nat} {x d : α} (h : i < l.length) :
    (l.set i x).getD i d = x := by
  simp [List.getD_eq_getElem?_getD, List.getElem?_set_self h]

theorem getD_set_ne {α : Type} {l : List α} {i j : Nat} {x d : α} (h : i ≠ j) :
    (l.set i x).getD j d = l.getD j d := by
  simp [List.getD_eq_getElem?_getD, List.getElem?_set_ne h]

theorem set_getD_self {α : Type} :
    ∀ (l : List α) (i : Nat) (d : α), i < l.length → l.set i (l.getD i d) = l
  | a :: l, 0, d, _ => by simp [List.getD]
  | a :: l, i + 1, d, h => by
      have := set_getD_self l i d (by simpa using h)
      simp [List.getD] at this ⊢
      exact this
  | [], i, d, h => by simp at h

theorem sub_mod_self_mod (x a : Nat) : (x - x % a) % a = 0 := by
  rcases Nat.eq_zero_or_pos a with h | h
  · subst h; simp
  · have hdm := Nat.div_add_mod x a
    have hx : x - x % a = a * (x / a) := by omega
    rw [hx]
    exact Nat.mul_mod_right a _

theorem le_alignUp (cfg : Config) (w : Nat) : w ≤ alignUp cfg w := by
  unfold alignUp
  split <;> omega

theorem alignUp_mod (cfg : Config) (w : Nat) (h : 0 < cfg.align) :
    alignUp cfg w % cfg.align = 0 := by
  unfold alignUp
  split
  · have hle : w % cfg.align ≤ w := Nat.mod_le w _
    have hlt : w % cfg.align < cfg.align := Nat.mod_lt w h
    have heq : w + (cfg.align - w % cfg.align) = (w - w % cfg.align) + cfg.align := by
      omega
    rw [heq, Nat.add_mod, sub_mod_self_mod, Nat.mod_self]
    simp
  · omega

theorem heapSTRUCT_SIZE_mod (cfg : Config) : heapSTRUCT_SIZE cfg % cfg.align = 0 :=
  sub_mod_self_mod _ _

theorem pucAlignedHeap_mod (cfg : Config) : pucAlignedHeap cfg % cfg.align = 0 :=
  sub_mod_self_mod _ _

/-! ### The best-fit scan -/

theorem bestFit_spec :
    ∀ (l : List Nat) (k w : Nat),
      (bestFit l k w = (k + l.length, w) ∧ ∀ x ∈ l, x < w) ∨
      (∃ j, j < l.length ∧ bestFit l k w = (k + j, l.getD j 0) ∧ w ≤ l.getD j 0 ∧
        ∀ i, i < j → l.getD i 0 < w)
  | [], k, w => by simp [bestFit]
  | bs :: rest, k, w => by
      by_cases h : w ≤ bs
      · right
        refine ⟨0, by simp, by simp [bestFit, h], by simpa using h, ?_⟩
        intro i hi
        exact absurd hi (Nat.not_lt_zero i)
      · have hstep : bestFit (bs :: rest) k w = bestFit rest (k + 1) w := by
          simp [bestFit, h]
        rcases bestFit_spec rest (k + 1) w with ⟨heq, hall⟩ | ⟨j, hj, heq, hge, hlt⟩
        · left
          constructor
          · rw [hstep, heq]
            simp only [Prod.mk.injEq, List.length_cons, and_true]
            omega
          · intro x hx
            rcases List.mem_cons.1 hx with rfl | hx
            · omega
            · exact hall x hx
        · right
          refine ⟨j + 1, by simpa using Nat.succ_lt_succ hj, ?_, by simpa using hge, ?_⟩
          · rw [hstep, heq]
            simp only [Prod.mk.injEq, List.getD_cons_succ, and_true]
            omega
          · intro i hi
            cases i with
            | zero => simpa using (by omega : bs < w)
            | succ i => simpa using hlt i (by omega)

/-- No class of `xSizeList` fits exactly when the request exceeds the largest
configured capacity, 1000. -/
theorem xSizeList_no_fit (w : Nat) : (∀ x ∈ xSizeList, x < w) ↔ 1000 < w := by
  simp only [xSizeList, List.mem_cons, List.not_mem_nil, or_false, forall_eq_or_imp,
    forall_eq]
  omega

/-! ### Branch characterisations of `pvPortMalloc` and `vPortFree` -/

theorem lazyInit_of_initialised {cfg : Config} {s : HeapState}
    (h : s.xHeapHasBeenInitialised = true) : lazyInit cfg s = s := by
  simp [lazyInit, h]

/-- The failure branch: when the admission check
`(xWantedSize > 0) && (xWantedSize < xFreeBytesRemaining)` does not hold, the
call returns NULL, leaves the state untouched, and runs the failure hook after
the exclusive section. -/
theorem malloc_not_admitted {cfg : Config} {s : HeapState} {sz : Nat}
    (hInit : s.xHeapHasBeenInitialised = true)
    (h : ¬(0 < mallocAdj cfg s sz ∧ mallocAdj cfg s sz < s.xFreeBytesRemaining)) :
    pvPortMalloc cfg s sz =
      { pvReturn := none, state := s
        events := [.suspendAll, .resumeAll] ++
          (if cfg.mallocFailedHook then [.mallocFailedHookCall] else [])
        ub := false } := by
  simp only [pvPortMalloc, lazyInit_of_initialised hInit]
  rw [if_neg h]

/-- The out-of-bounds branch: admission passed but the best-fit loop found no
class, so the code reads `xPool[10]`. -/
theorem malloc_oob {cfg : Config} {s : HeapState} {sz : Nat}
    (hInit : s.xHeapHasBeenInitialised = true)
    (hadm : 0 < mallocAdj cfg s sz ∧ mallocAdj cfg s sz < s.xFreeBytesRemaining)
    (hge : ¬ mallocIter cfg s sz < s.xPool.length) :
    pvPortMalloc cfg s sz =
      { pvReturn := none, state := s, events := [.suspendAll, .resumeAll], ub := true } := by
  simp only [pvPortMalloc, lazyInit_of_initialised hInit]
  rw [if_pos hadm, if_neg hge]

/-- The reuse branch: admission passed, the selected class is in range and its
free list is non-empty; the head block is returned and unlinked. -/
theorem malloc_reuse {cfg : Config} {s : HeapState} {sz b : Nat} {rest : List Nat}
    (hInit : s.xHeapHasBeenInitialised = true)
    (hadm : 0 < mallocAdj cfg s sz ∧ mallocAdj cfg s sz < s.xFreeBytesRemaining)
    (hlt : mallocIter cfg s sz < s.xPool.length)
    (hff : (s.xPool.getD (mallocIter cfg s sz) default).pxFirstFree = b :: rest) :
    pvPortMalloc cfg s sz =
      { pvReturn := some (b + heapSTRUCT_SIZE cfg)
        state :=
          { s with
            xPool := s.xPool.set (mallocIter cfg s sz)
              { s.xPool.getD (mallocIter cfg s sz) default with pxFirstFree := rest }
            xFreeBytesRemaining :=
              s.xFreeBytesRemaining - (s.xPool.getD (mallocIter cfg s sz) default).xBlockSize
            live := (b + heapSTRUCT_SIZE cfg, mallocIter cfg s sz) :: s.live }
        events := [.suspendAll, .resumeAll]
        ub := false } := by
  simp only [pvPortMalloc, lazyInit_of_initialised hInit]
  rw [if_pos hadm, if_pos hlt, hff]

/-- The carve branch: admission passed, the selected class is in range and its
free list is empty; a fresh block is carved at `pxFreeHeap`, its header's pool
field is written, and the cursor advances by the adjusted size with no check
against the arena's end. -/
theorem malloc_carve {cfg : Config} {s : HeapState} {sz : Nat}
    (hInit : s.xHeapHasBeenInitialised = true)
    (hadm : 0 < mallocAdj cfg s sz ∧ mallocAdj cfg s sz < s.xFreeBytesRemaining)
    (hlt : mallocIter cfg s sz < s.xPool.length)
    (hff : (s.xPool.getD (mallocIter cfg s sz) default).pxFirstFree = []) :
    pvPortMalloc cfg s sz =
      { pvReturn := some (s.pxFreeHeap + heapSTRUCT_SIZE cfg)
        state :=
          { s with
            owner := (s.pxFreeHeap, mallocIter cfg s sz) :: s.owner
            pxFreeHeap := s.pxFreeHeap + mallocAdj cfg s sz
            xFreeBytesRemaining :=
              s.xFreeBytesRemaining - (s.xPool.getD (mallocIter cfg s sz) default).xBlockSize
            live := (s.pxFreeHeap + heapSTRUCT_SIZE cfg, mallocIter cfg s sz) :: s.live }
        events := [.suspendAll, .resumeAll]
        ub := false } := by
  simp only [pvPortMalloc, lazyInit_of_initialised hInit]
  rw [if_pos hadm, if_pos hlt, hff]

/-- `vPortFree` on a pointer whose header was written by a carve: the block is
pushed at the head of its owning pool's free list and the pool's nominal block
size is added back to the advisory counter. -/
theorem free_some {cfg : Config} {s : HeapState} {p i : Nat}
    (hl : List.lookup (p - heapSTRUCT_SIZE cfg) s.owner = some i) :
    vPortFree cfg s (some p) =
      { state :=
          { s with
            xPool := s.xPool.set i
              { s.xPool.getD i default with
                pxFirstFree :=
                  (p - heapSTRUCT_SIZE cfg) ::
                    (s.xPool.getD i default).pxFirstFree }
            xFreeBytesRemaining :=
              s.xFreeBytesRemaining + (s.xPool.getD i default).xBlockSize
            live := s.live.eraseP (fun pc => pc.1 == p) }
        ub := false } := by
  simp only [vPortFree]
  rw [hl]

/-! ### The invariant: establishment and preservation -/

theorem Inv.poolLength {cfg : Config} {s : HeapState} (hI : Inv cfg s) :
    s.xPool.length = heapMAXIMUM_POOL_NUM := by
  have := congrArg List.length hI.sizes
  simpa [xSizeList, heapMAXIMUM_POOL_NUM] using this

/-- The nominal block size of pool `i` is the `i`-th entry of `xSizeList`. -/
theorem Inv.blockSize {cfg : Config} {s : HeapState} (hI : Inv cfg s) (i : Nat) :
    (s.xPool.getD i default).xBlockSize = xSizeList.getD i 0 := by
  have h := List.getD_map s.xPool (default : Pool) (n := i) (Pool.xBlockSize)
  rw [hI.sizes] at h
  exact h.symm

theorem getD_pxFirstFree_nil {l : List Pool} {i : Nat}
    (h : ∀ p ∈ l, p.pxFirstFree = []) : (l.getD i default).pxFirstFree = [] := by
  rw [List.getD_eq_getElem?_getD]
  cases hx : l[i]? with
  | none => rfl
  | some p =>
      rcases List.getElem?_eq_some_iff.1 hx with ⟨hlen, rfl⟩
      exact h _ (List.getElem_mem hlen)

/-- The state produced by lazy initialisation from the C globals satisfies the
invariant. -/
theorem Inv_readyState (cfg : Config) (_hcfg : cfg.WF) : Inv cfg (readyState cfg) := by
  have hready : readyState cfg =
      { xHeapHasBeenInitialised := true
        xPoolHasBeenInitialised := true
        xPool := (List.range heapMAXIMUM_POOL_NUM).map
          (fun i => { pxFirstFree := [], xBlockSize := xSizeList.getD i 0 })
        pxFreeHeap := pucAlignedHeap cfg
        xFreeBytesRemaining := configADJUSTED_HEAP_SIZE cfg
        owner := []
        live := [] } := rfl
  constructor
  · rw [hready]
  · rw [hready]
  · rw [hready]
    rfl
  · rw [hready]
    exact pucAlignedHeap_mod cfg
  · rw [hready]
    intro a c h
    simp at h
  · rw [hready]
    intro p c h
    simp at h
  · rw [hready]
    intro i _ b hb
    rw [getD_pxFirstFree_nil (by intro p hp; rcases List.mem_map.1 hp with ⟨j, -, rfl⟩; rfl)] at hb
    simp at hb
  · rw [hready]
    simp [chargeSum]

/-- Unpacks the size-adjustment computation for a positive request whose
best-fit scan found a class: the selected index is the first fitting class and
the adjusted size is that class's block size plus the header, aligned up. -/
theorem adjust_fit {cfg : Config} {s : HeapState} {sz : Nat} (hI : Inv cfg s)
    (hsz : 0 < sz) (hlt : mallocIter cfg s sz < s.xPool.length) :
    mallocIter cfg s sz < heapMAXIMUM_POOL_NUM ∧
    sz ≤ xSizeList.getD (mallocIter cfg s sz) 0 ∧
    (∀ i, i < mallocIter cfg s sz → xSizeList.getD i 0 < sz) ∧
    mallocAdj cfg s sz =
      alignUp cfg (xSizeList.getD (mallocIter cfg s sz) 0 + heapSTRUCT_SIZE cfg) := by
  have hlen : s.xPool.length = heapMAXIMUM_POOL_NUM := hI.poolLength
  have hiter : mallocIter cfg s sz = (bestFit xSizeList 0 sz).1 := by
    simp [mallocIter, adjustWanted, hsz, hI.sizes]
  have hadj : mallocAdj cfg s sz =
      alignUp cfg ((bestFit xSizeList 0 sz).2 + heapSTRUCT_SIZE cfg) := by
    simp [mallocAdj, adjustWanted, hsz, hI.sizes]
  rcases bestFit_spec xSizeList 0 sz with ⟨heq, -⟩ | ⟨j, hj, heq, hge, hall⟩
  · rw [hiter, heq] at hlt
    rw [hlen] at hlt
    simp [xSizeList, heapMAXIMUM_POOL_NUM] at hlt
  · rw [hiter, heq]
    rw [hadj, heq]
    have hj10 : j < heapMAXIMUM_POOL_NUM := by
      simpa [xSizeList, heapMAXIMUM_POOL_NUM] using hj
    exact ⟨by simpa using hj10, by simpa using hge, by simpa using hall, by simp⟩

/-- Setting only the free-list field of one pool leaves the size table
unchanged. -/
theorem sizes_set {cfg : Config} {s : HeapState} (hI : Inv cfg s) (i : Nat)
    (hl : i < s.xPool.length) (ff : List Nat) :
    (s.xPool.set i { s.xPool.getD i default with pxFirstFree := ff }).map
      Pool.xBlockSize = xSizeList := by
  rw [List.map_set]
  have h1 : ({ s.xPool.getD i default with pxFirstFree := ff } : Pool).xBlockSize
      = (s.xPool.map Pool.xBlockSize).getD i 0 := by
    have h2 := List.getD_map s.xPool (default : Pool) (n := i) (Pool.xBlockSize)
    exact h2.symm
  rw [h1, set_getD_self _ _ _ (by simpa using hl), hI.sizes]

/-- For a request with positive adjusted size, the request itself is positive. -/
theorem mallocAdj_pos_sz {cfg : Config} {s : HeapState} {sz : Nat}
    (h : 0 < mallocAdj cfg s sz) : 0 < sz := by
  by_contra hsz
  have hz : mallocAdj cfg s sz = sz := by
    simp [mallocAdj, adjustWanted, hsz]
  omega

/-- `pvPortMalloc` preserves the invariant whenever it does not run into the
out-of-bounds pool access. -/
theorem Inv_malloc {cfg : Config} {s : HeapState} {sz : Nat} (hcfg : cfg.WF)
    (hI : Inv cfg s) (hub : (pvPortMalloc cfg s sz).ub = false) :
    Inv cfg (pvPortMalloc cfg s sz).state := by
  by_cases hadm : 0 < mallocAdj cfg s sz ∧ mallocAdj cfg s sz < s.xFreeBytesRemaining
  case neg =>
    rw [malloc_not_admitted hI.hInit hadm]
    exact hI
  case pos =>
    by_cases hlt : mallocIter cfg s sz < s.xPool.length
    case neg =>
      rw [malloc_oob hI.hInit hadm hlt] at hub
      simp at hub
    case pos =>
      have hsz : 0 < sz := mallocAdj_pos_sz hadm.1
      obtain ⟨hi10, hfit, hfirst, hadj⟩ := adjust_fit hI hsz hlt
      have hbs : (s.xPool.getD (mallocIter cfg s sz) default).xBlockSize =
          xSizeList.getD (mallocIter cfg s sz) 0 := hI.blockSize _
      have hbs_le : xSizeList.getD (mallocIter cfg s sz) 0 ≤ mallocAdj cfg s sz := by
        rw [hadj]
        exact le_trans (Nat.le_add_right _ _) (le_alignUp cfg _)
      have hwmod : mallocAdj cfg s sz % cfg.align = 0 := by
        rw [hadj]
        exact alignUp_mod cfg _ hcfg.1
      have hacct := hI.acct
      cases hff : (s.xPool.getD (mallocIter cfg s sz) default).pxFirstFree with
      | cons b rest =>
          rw [malloc_reuse hI.hInit hadm hlt hff]
          have hbmem : b ∈ (s.xPool.getD (mallocIter cfg s sz) default).pxFirstFree := by
            rw [hff]
            exact List.mem_cons_self _ _
          obtain ⟨hlook, hbal⟩ := hI.freeOwner _ hi10 b hbmem
          constructor
          · exact hI.hInit
          · exact hI.pInit
          · exact sizes_set hI _ hlt rest
          · exact hI.cursorAligned
          · exact hI.ownerFresh
          · intro p c h
            simp only [List.mem_cons, Prod.mk.injEq] at h
            rcases h with ⟨rfl, rfl⟩ | hmem
            · refine ⟨Nat.le_add_left _ _, ?_, ?_, hi10⟩
              · rw [Nat.add_sub_cancel]
                exact hbal
              · rw [Nat.add_sub_cancel]
                exact hlook
            · exact hI.liveOwner p c hmem
          · intro i h10 b' hb'
            by_cases hii : mallocIter cfg s sz = i
            · subst hii
              rw [getD_set_self hlt] at hb'
              exact hI.freeOwner _ hi10 b' (by rw [hff]; exact List.mem_cons_of_mem _ hb')
            · rw [getD_set_ne hii] at hb'
              exact hI.freeOwner i h10 b' hb'
          · show s.xFreeBytesRemaining - (s.xPool.getD (mallocIter cfg s sz) default).xBlockSize +
                chargeSum ((b + heapSTRUCT_SIZE cfg, mallocIter cfg s sz) :: s.live) =
                configADJUSTED_HEAP_SIZE cfg
            have hcs : chargeSum ((b + heapSTRUCT_SIZE cfg, mallocIter cfg s sz) :: s.live) =
                xSizeList.getD (mallocIter cfg s sz) 0 + chargeSum s.live := by
              simp [chargeSum, chargeOf]
            rw [hcs, hbs]
            omega
      | nil =>
          rw [malloc_carve hI.hInit hadm hlt hff]
          constructor
          · exact hI.hInit
          · exact hI.pInit
          · exact hI.sizes
          · show (s.pxFreeHeap + mallocAdj cfg s sz) % cfg.align = 0
            rw [Nat.add_mod, hI.cursorAligned, hwmod]
            simp
          · intro a c h
            simp only [List.mem_cons, Prod.mk.injEq] at h
            rcases h with ⟨rfl, rfl⟩ | hmem
            · show s.pxFreeHeap < s.pxFreeHeap + mallocAdj cfg s sz
              omega
            · show a < s.pxFreeHeap + mallocAdj cfg s sz
              have := hI.ownerFresh a c hmem
              omega
          · intro p c h
            simp only [List.mem_cons, Prod.mk.injEq] at h
            rcases h with ⟨rfl, rfl⟩ | hmem
            · refine ⟨Nat.le_add_left _ _, ?_, ?_, hi10⟩
              · rw [Nat.add_sub_cancel]
                exact hI.cursorAligned
              · rw [Nat.add_sub_cancel, lookup_cons]
                simp
            · obtain ⟨hp1, hp2, hp3, hp4⟩ := hI.liveOwner p c hmem
              refine ⟨hp1, hp2, ?_, hp4⟩
              have hne : p - heapSTRUCT_SIZE cfg ≠ s.pxFreeHeap := by
                have := hI.ownerFresh _ _ (mem_of_lookup hp3)
                omega
              rw [lookup_cons, if_neg hne]
              exact hp3
          · intro i h10 b' hb'
            obtain ⟨hlook', hal'⟩ := hI.freeOwner i h10 b' hb'
            refine ⟨?_, hal'⟩
            have hne : b' ≠ s.pxFreeHeap := by
              have := hI.ownerFresh _ _ (mem_of_lookup hlook')
              omega
            rw [lookup_cons, if_neg hne]
            exact hlook'
          · show s.xFreeBytesRemaining - (s.xPool.getD (mallocIter cfg s sz) default).xBlockSize +
                chargeSum ((s.pxFreeHeap + heapSTRUCT_SIZE cfg, mallocIter cfg s sz) :: s.live) =
                configADJUSTED_HEAP_SIZE cfg
            have hcs : chargeSum
                ((s.pxFreeHeap + heapSTRUCT_SIZE cfg, mallocIter cfg s sz) :: s.live) =
                xSizeList.getD (mallocIter cfg s sz) 0 + chargeSum s.live := by
              simp [chargeSum, chargeOf]
            rw [hcs, hbs]
            omega

/-- `vPortFree` on an outstanding pointer preserves the invariant and hits no
undefined behavior. -/
theorem Inv_free {cfg : Config} {s : HeapState} {p c : Nat} (hI : Inv cfg s)
    (hc : (p, c) ∈ s.live) :
    Inv cfg (vPortFree cfg s (some p)).state ∧ (vPortFree cfg s (some p)).ub = false := by
  obtain ⟨hhs, hal, hlook, hc10⟩ := hI.liveOwner p c hc
  have hclen : c < s.xPool.length := by
    rw [hI.poolLength]
    exact hc10
  rw [free_some hlook]
  refine ⟨?_, rfl⟩
  have hpred : (fun pc : Nat × Nat => pc.1 == p) (p, c) = true := by simp
  obtain ⟨x, l₁, l₂, hnl₁, hpx, hsplit, herase⟩ :=
    List.exists_of_eraseP (p := fun pc : Nat × Nat => pc.1 == p) hc hpred
  have hx1 : x.1 = p := by simpa using hpx
  have hxmem : x ∈ s.live := by
    rw [hsplit]
    exact List.mem_append_right _ (List.mem_cons_self _ _)
  have hx2 : x.2 = c := by
    obtain ⟨-, -, hlx, -⟩ := hI.liveOwner x.1 x.2 (by simpa using hxmem)
    rw [hx1, hlook] at hlx
    exact (Option.some.inj hlx).symm
  constructor
  · exact hI.hInit
  · exact hI.pInit
  · exact sizes_set hI c hclen _
  · exact hI.cursorAligned
  · exact hI.ownerFresh
  · intro p' c' h'
    exact hI.liveOwner p' c' (List.Sublist.mem h' (List.eraseP_sublist _))
  · intro i h10 b' hb'
    by_cases hci : c = i
    · subst hci
      rw [getD_set_self hclen] at hb'
      rcases List.mem_cons.1 hb' with rfl | hmem
      · exact ⟨hlook, hal⟩
      · exact hI.freeOwner c hc10 b' hmem
    · rw [getD_set_ne hci] at hb'
      exact hI.freeOwner i h10 b' hb'
  · show s.xFreeBytesRemaining + (s.xPool.getD c default).xBlockSize +
        chargeSum (s.live.eraseP (fun pc => pc.1 == p)) = configADJUSTED_HEAP_SIZE cfg
    have hacct := hI.acct
    have hsum1 : chargeSum s.live = chargeSum l₁ + chargeOf x + chargeSum l₂ := by
      rw [hsplit]
      simp [chargeSum]
      omega
    have hsum2 : chargeSum (s.live.eraseP (fun pc => pc.1 == p)) =
        chargeSum l₁ + chargeSum l₂ := by
      rw [herase]
      simp [chargeSum]
    have hcx : chargeOf x = (s.xPool.getD c default).xBlockSize := by
      rw [hI.blockSize c]
      simp [chargeOf, hx2]
    rw [hsum2]
    omega

/-- A valid `free` operation targets some outstanding pointer. -/
theorem valid_free_exists {s : HeapState} {p : Nat}
    (hv : s.live.any (fun pc => pc.1 == p) = true) : ∃ c, (p, c) ∈ s.live := by
  rcases List.any_eq_true.1 hv with ⟨pc, hm, hp⟩
  cases pc with
  | mk p1 c =>
      have : p1 = p := by simpa using hp
      subst this
      exact ⟨c, hm⟩

/-- One valid operation preserves the invariant. -/
theorem Inv_step {cfg : Config} {s : HeapState} {op : Op} (hcfg : cfg.WF)
    (hI : Inv cfg s) (hv : validStep cfg s op = true) :
    Inv cfg (stepOp cfg s op) := by
  cases op with
  | alloc sz =>
      exact Inv_malloc hcfg hI (by simpa [validStep] using hv)
  | free p =>
      rcases valid_free_exists (by simpa [validStep] using hv) with ⟨c, hc⟩
      exact (Inv_free hI hc).1

/-- A valid trace preserves the invariant. -/
theorem Inv_runOps {cfg : Config} (hcfg : cfg.WF) :
    ∀ (ops : List Op) (s : HeapState), Inv cfg s → validTrace cfg s ops = true →
      Inv cfg (runOps cfg s ops)
  | [], s, hI, _ => hI
  | op :: ops, s, hI, hv => by
      rw [validTrace, Bool.and_eq_true] at hv
      have hI2 := Inv_step hcfg hI hv.1
      have := Inv_runOps hcfg ops (stepOp cfg s op) hI2 hv.2
      simpa [runOps] using this

/-- `vPortFree` never writes a header's pool field. -/
theorem free_owner_eq {cfg : Config} (s : HeapState) (pv : Option Nat) :
    (vPortFree cfg s pv).state.owner = s.owner := by
  cases pv with
  | none => rfl
  | some p =>
      simp only [vPortFree]
      cases List.lookup (p - heapSTRUCT_SIZE cfg) s.owner <;> rfl

/-- A header's pool field, once written by a carve, is never rewritten by a
later valid operation. -/
theorem owner_step_mono {cfg : Config} {s : HeapState} {op : Op} {a c : Nat}
    (hI : Inv cfg s) (hv : validStep cfg s op = true)
    (h : List.lookup a s.owner = some c) :
    List.lookup a (stepOp cfg s op).owner = some c := by
  cases op with
  | free p =>
      show List.lookup a (vPortFree cfg s (some p)).state.owner = some c
      rw [free_owner_eq]
      exact h
  | alloc sz =>
      have hub : (pvPortMalloc cfg s sz).ub = false := by simpa [validStep] using hv
      show List.lookup a (pvPortMalloc cfg s sz).state.owner = some c
      by_cases hadm : 0 < mallocAdj cfg s sz ∧ mallocAdj cfg s sz < s.xFreeBytesRemaining
      case neg =>
        rw [malloc_not_admitted hI.hInit hadm]
        exact h
      case pos =>
        by_cases hlt : mallocIter cfg s sz < s.xPool.length
        case neg =>
          rw [malloc_oob hI.hInit hadm hlt] at hub
          simp at hub
        case pos =>
          cases hff : (s.xPool.getD (mallocIter cfg s sz) default).pxFirstFree with
          | cons b rest =>
              rw [malloc_reuse hI.hInit hadm hlt hff]
              exact h
          | nil =>
              rw [malloc_carve hI.hInit hadm hlt hff]
              show List.lookup a ((s.pxFreeHeap, mallocIter cfg s sz) :: s.owner) = some c
              have hne : a ≠ s.pxFreeHeap := by
                have := hI.ownerFresh _ _ (mem_of_lookup h)
                omega
              rw [lookup_cons, if_neg hne]
              exact h

/-- Header pool fields survive any valid trace unchanged. -/
theorem owner_runOps_mono {cfg : Config} (hcfg : cfg.WF) :
    ∀ (ops : List Op) (s : HeapState), Inv cfg s → validTrace cfg s ops = true →
      ∀ a c, List.lookup a s.owner = some c →
        List.lookup a (runOps cfg s ops).owner = some c
  | [], _, _, _, _, _, h => h
  | op :: ops, s, hI, hv, a, c, h => by
      rw [validTrace, Bool.and_eq_true] at hv
      have h2 := owner_step_mono hI hv.1 h
      have hI2 := Inv_step hcfg hI hv.1
      have := owner_runOps_mono hcfg ops (stepOp cfg s op) hI2 hv.2 a c h2
      simpa [runOps] using this

theorem runOps_append (cfg : Config) (s : HeapState) (l₁ l₂ : List Op) :
    runOps cfg s (l₁ ++ l₂) = runOps cfg (runOps cfg s l₁) l₂ := by
  simp [runOps, List.foldl_append]

theorem validTrace_append (cfg : Config) :
    ∀ (l₁ l₂ : List Op) (s : HeapState),
      validTrace cfg s (l₁ ++ l₂) =
        (validTrace cfg s l₁ && validTrace cfg (runOps cfg s l₁) l₂)
  | [], l₂, s => by simp [validTrace, runOps]
  | op :: l₁, l₂, s => by
      have := validTrace_append cfg l₁ l₂ (stepOp cfg s op)
      simp [validTrace, runOps] at this ⊢
      rw [this, Bool.and_assoc]

/-- Characterisation of a successful `pvPortMalloc` call on an invariant
state: undefined behavior was not reached, the returned pointer sits one
header past a block whose header records the selected class, the ghost `live`
list gains the pointer, and the advisory counter dropped by exactly the
selected class's nominal block size. -/
theorem malloc_success {cfg : Config} {s : HeapState} {sz P : Nat} (hI : Inv cfg s)
    (hP : (pvPortMalloc cfg s sz).pvReturn = some P) :
    (pvPortMalloc cfg s sz).ub = false ∧
    heapSTRUCT_SIZE cfg ≤ P ∧
    (pvPortMalloc cfg s sz).state.live = (P, mallocIter cfg s sz) :: s.live ∧
    List.lookup (P - heapSTRUCT_SIZE cfg) (pvPortMalloc cfg s sz).state.owner =
      some (mallocIter cfg s sz) ∧
    (pvPortMalloc cfg s sz).state.xFreeBytesRemaining =
      s.xFreeBytesRemaining - xSizeList.getD (mallocIter cfg s sz) 0 ∧
    0 < mallocAdj cfg s sz ∧ mallocAdj cfg s sz < s.xFreeBytesRemaining ∧
    mallocIter cfg s sz < heapMAXIMUM_POOL_NUM := by
  by_cases hadm : 0 < mallocAdj cfg s sz ∧ mallocAdj cfg s sz < s.xFreeBytesRemaining
  case neg =>
    rw [malloc_not_admitted hI.hInit hadm] at hP
    simp at hP
  case pos =>
    by_cases hlt : mallocIter cfg s sz < s.xPool.length
    case neg =>
      rw [malloc_oob hI.hInit hadm hlt] at hP
      simp at hP
    case pos =>
      have hsz : 0 < sz := mallocAdj_pos_sz hadm.1
      obtain ⟨hi10, hfit, -, -⟩ := adjust_fit hI hsz hlt
      cases hff : (s.xPool.getD (mallocIter cfg s sz) default).pxFirstFree with
      | cons b rest =>
          rw [malloc_reuse hI.hInit hadm hlt hff] at hP ⊢
          have hPe : P = b + heapSTRUCT_SIZE cfg := by
            simpa using hP.symm
          obtain ⟨hlook, -⟩ := hI.freeOwner _ hi10 b (by rw [hff]; exact List.mem_cons_self _ _)
          subst hPe
          refine ⟨rfl, Nat.le_add_left _ _, rfl, ?_, ?_, hadm.1, hadm.2, hi10⟩
          · show List.lookup (b + heapSTRUCT_SIZE cfg - heapSTRUCT_SIZE cfg) s.owner = _
            rw [Nat.add_sub_cancel]
            exact hlook
          · show s.xFreeBytesRemaining - (s.xPool.getD (mallocIter cfg s sz) default).xBlockSize = _
            rw [hI.blockSize]
      | nil =>
          rw [malloc_carve hI.hInit hadm hlt hff] at hP ⊢
          have hPe : P = s.pxFreeHeap + heapSTRUCT_SIZE cfg := by
            simpa using hP.symm
          subst hPe
          refine ⟨rfl, Nat.le_add_left _ _, rfl, ?_, ?_, hadm.1, hadm.2, hi10⟩
          · show List.lookup (s.pxFreeHeap + heapSTRUCT_SIZE cfg - heapSTRUCT_SIZE cfg)
                ((s.pxFreeHeap, mallocIter cfg s sz) :: s.owner) = _
            rw [Nat.add_sub_cancel, lookup_cons]
            simp
          · show s.xFreeBytesRemaining - (s.xPool.getD (mallocIter cfg s sz) default).xBlockSize = _
            rw [hI.blockSize]

/-- The configuration `cfgA` is well formed. -/
theorem cfgA_WF : cfgA.WF :=
  ⟨by decide, by decide⟩

/-- The concrete class table is ascending. -/
theorem xSizeList_sorted :
    ∀ i, i < heapMAXIMUM_POOL_NUM → ∀ j, j < heapMAXIMUM_POOL_NUM → i ≤ j →
      xSizeList.getD i 0 ≤ xSizeList.getD j 0 := by
  decide

/-! ### The claims -/

/-- Claim C2 (code_bug evidence): for an oversized request (1001 bytes, above
the largest class capacity 1000) on a freshly initialised heap whose advisory
counter (25600) exceeds the adjusted size, the best-fit loop terminates with
`iter = 10` and the admission check passes, so `pvPortMalloc` reads
`xPool[10]` — one past the end of the ten-entry pool array — instead of
failing cleanly with no state change as the specification requires. -/
theorem c2_oversize_out_of_bounds :
    mallocIter cfgBig (readyState cfgBig) 1001 = heapMAXIMUM_POOL_NUM ∧
    (pvPortMalloc cfgBig (readyState cfgBig) 1001).ub = true := by
  constructor <;> decide

/-- Claim C3, counterexample to the claim as stated: a zero-byte request does
not succeed and does not consume header-sized space — it returns NULL and
leaves the (initialised) state completely unchanged. -/
theorem c3_counterexample :
    (pvPortMalloc cfgA (readyState cfgA) 0).pvReturn = none ∧
    (pvPortMalloc cfgA (readyState cfgA) 0).state = readyState cfgA := by
  constructor <;> decide

/-- Claim C3 (amended): a request of size 0 skips the whole size-adjustment
block — class selection and the header addition alike — so the adjusted size
stays 0, the admission check `xWantedSize > 0` fails, and the call returns
FAILURE with no allocator state change and no space consumed. -/
theorem c3_zero_request_amended (cfg : Config) (s : HeapState)
    (hInit : s.xHeapHasBeenInitialised = true) :
    mallocIter cfg s 0 = 0 ∧ mallocAdj cfg s 0 = 0 ∧
    (pvPortMalloc cfg s 0).pvReturn = none ∧
    (pvPortMalloc cfg s 0).state = s ∧
    (pvPortMalloc cfg s 0).ub = false := by
  have hadj : mallocAdj cfg s 0 = 0 := by
    simp [mallocAdj, adjustWanted]
  have hiter : mallocIter cfg s 0 = 0 := by
    simp [mallocIter, adjustWanted]
  have hno : ¬(0 < mallocAdj cfg s 0 ∧ mallocAdj cfg s 0 < s.xFreeBytesRemaining) := by
    rw [hadj]
    simp
  rw [malloc_not_admitted hInit hno]
  exact ⟨hiter, hadj, rfl, rfl, rfl⟩

theorem c3_zero_request_amended_witness :
    mallocAdj cfgA (readyState cfgA) 0 = 0 ∧
    (pvPortMalloc cfgA (readyState cfgA) 0).ub = false :=
  ⟨(c3_zero_request_amended cfgA (readyState cfgA) (by decide)).2.1,
   (c3_zero_request_amended cfgA (readyState cfgA) (by decide)).2.2.2.2⟩

/-- Claim C5: an allocation proceeds (returns non-NULL) only if the adjusted
size is strictly below the advisory remaining counter, and when that check
fails the call returns FAILURE and changes no allocator state at all. -/
theorem c5_admission_check (cfg : Config) (s : HeapState) (sz : Nat)
    (hInit : s.xHeapHasBeenInitialised = true) :
    ((pvPortMalloc cfg s sz).pvReturn ≠ none →
      mallocAdj cfg s sz < s.xFreeBytesRemaining) ∧
    (¬ mallocAdj cfg s sz < s.xFreeBytesRemaining →
      (pvPortMalloc cfg s sz).pvReturn = none ∧
      (pvPortMalloc cfg s sz).state = s ∧
      (pvPortMalloc cfg s sz).ub = false) := by
  constructor
  · intro hne
    by_cases hadm : 0 < mallocAdj cfg s sz ∧ mallocAdj cfg s sz < s.xFreeBytesRemaining
    · exact hadm.2
    · rw [malloc_not_admitted hInit hadm] at hne
      simp at hne
  · intro hge
    have hno : ¬(0 < mallocAdj cfg s sz ∧ mallocAdj cfg s sz < s.xFreeBytesRemaining) := by
      intro h
      exact hge h.2
    rw [malloc_not_admitted hInit hno]
    exact ⟨rfl, rfl, rfl⟩

theorem c5_admission_check_witness :
    (pvPortMalloc cfgA (readyState cfgA) 1000).pvReturn = none ∧
    (pvPortMalloc cfgA (readyState cfgA) 1000).state = readyState cfgA := by
  have h := (c5_admission_check cfgA (readyState cfgA) 1000 (by decide)).2 (by decide)
  exact ⟨h.1, h.2.1⟩

/-- Claim C7: a successful allocation decrements the advisory counter by
exactly the selected class's nominal block size, a free of an outstanding
block increments it by exactly the owning class's nominal block size, and
therefore any valid operation sequence that ends with every outstanding block
freed brings `xPortGetFreeHeapSize` back to its post-initialisation value. -/
theorem c7_accounting_round_trip (cfg : Config) (hcfg : cfg.WF) :
    (∀ s sz P, Inv cfg s → (pvPortMalloc cfg s sz).pvReturn = some P →
      (pvPortMalloc cfg s sz).state.xFreeBytesRemaining =
        s.xFreeBytesRemaining - xSizeList.getD (mallocIter cfg s sz) 0) ∧
    (∀ s p c, Inv cfg s → (p, c) ∈ s.live →
      (vPortFree cfg s (some p)).state.xFreeBytesRemaining =
        s.xFreeBytesRemaining + xSizeList.getD c 0) ∧
    (∀ ops, validTrace cfg (readyState cfg) ops = true →
      (runOps cfg (readyState cfg) ops).live = [] →
      xPortGetFreeHeapSize (runOps cfg (readyState cfg) ops) =
        xPortGetFreeHeapSize (readyState cfg)) := by
  refine ⟨?_, ?_, ?_⟩
  · intro s sz P hI hP
    exact (malloc_success hI hP).2.2.2.2.1
  · intro s p c hI hc
    obtain ⟨-, -, hlook, -⟩ := hI.liveOwner p c hc
    rw [free_some hlook]
    show s.xFreeBytesRemaining + (s.xPool.getD c default).xBlockSize = _
    rw [hI.blockSize]
  · intro ops hv hempty
    have hI := Inv_runOps hcfg ops (readyState cfg) (Inv_readyState cfg hcfg) hv
    have hacct := hI.acct
    rw [hempty] at hacct
    simp [chargeSum] at hacct
    show (runOps cfg (readyState cfg) ops).xFreeBytesRemaining = _
    rw [hacct]
    rfl

theorem c7_accounting_round_trip_witness :
    xPortGetFreeHeapSize (runOps cfgA (readyState cfgA)
      [Op.alloc 100, Op.alloc 200, Op.free 16, Op.free 128]) =
    xPortGetFreeHeapSize (readyState cfgA) :=
  (c7_accounting_round_trip cfgA cfgA_WF).2.2 _ (by decide) (by decide)

/-- Claim C8: a second `xPortPoolInit` call, with the pool table already
initialised by the first, returns `pdFALSE` (reports "already initialised")
and leaves the whole registry state — every class's block size and free-list
head — exactly as the first call left it, even if called with a different
size table. -/
theorem c8_pool_init_idempotent (cfg : Config) (s : HeapState) (l₁ l₂ : List Nat) :
    (xPortPoolInit cfg (xPortPoolInit cfg s l₁).2 l₂).1 = false ∧
    (xPortPoolInit cfg (xPortPoolInit cfg s l₁).2 l₂).2 = (xPortPoolInit cfg s l₁).2 := by
  have hflag : ((xPortPoolInit cfg s l₁).2).xPoolHasBeenInitialised = true := by
    by_cases h : s.xPoolHasBeenInitialised
    · simp [xPortPoolInit, h]
    · simp [xPortPoolInit, h]
  generalize hgen : (xPortPoolInit cfg s l₁).2 = t at hflag ⊢
  simp [xPortPoolInit, hflag]

/-- Claim C9: the collaborator calls of one `pvPortMalloc` are the suspend /
resume pair followed by a tail that contains nothing but failure-hook calls,
and the hook call is present exactly when a hook is configured and the call
returned NULL; in particular the hook only runs after the exclusive section
has been released and never on a successful allocation. -/
theorem c9_failure_hook (cfg : Config) (s : HeapState) (sz : Nat)
    (hInit : s.xHeapHasBeenInitialised = true)
    (hub : (pvPortMalloc cfg s sz).ub = false) :
    ∃ tail,
      (pvPortMalloc cfg s sz).events = [Event.suspendAll, Event.resumeAll] ++ tail ∧
      (Event.mallocFailedHookCall ∈ tail ↔
        cfg.mallocFailedHook = true ∧ (pvPortMalloc cfg s sz).pvReturn = none) ∧
      (∀ e ∈ tail, e = Event.mallocFailedHookCall) := by
  by_cases hadm : 0 < mallocAdj cfg s sz ∧ mallocAdj cfg s sz < s.xFreeBytesRemaining
  case neg =>
    rw [malloc_not_admitted hInit hadm]
    refine ⟨if cfg.mallocFailedHook then [Event.mallocFailedHookCall] else [], rfl, ?_, ?_⟩
    · cases hcfg : cfg.mallocFailedHook <;> simp [hcfg]
    · cases hcfg : cfg.mallocFailedHook <;> simp [hcfg]
  case pos =>
    by_cases hlt : mallocIter cfg s sz < s.xPool.length
    case neg =>
      rw [malloc_oob hInit hadm hlt] at hub
      simp at hub
    case pos =>
      cases hff : (s.xPool.getD (mallocIter cfg s sz) default).pxFirstFree with
      | cons b rest =>
          rw [malloc_reuse hInit hadm hlt hff]
          refine ⟨[], rfl, ?_, by simp⟩
          simp
      | nil =>
          rw [malloc_carve hInit hadm hlt hff]
          refine ⟨[], rfl, ?_, by simp⟩
          simp

theorem c9_failure_hook_witness :
    ∃ tail,
      (pvPortMalloc cfgA (readyState cfgA) 0).events =
        [Event.suspendAll, Event.resumeAll] ++ tail ∧
      (Event.mallocFailedHookCall ∈ tail ↔
        cfgA.mallocFailedHook = true ∧
          (pvPortMalloc cfgA (readyState cfgA) 0).pvReturn = none) ∧
      (∀ e ∈ tail, e = Event.mallocFailedHookCall) :=
  c9_failure_hook cfgA (readyState cfgA) 0 (by decide) (by decide)

/-- Claim C10: a block header's owning-class field is written only when the
block is carved and is never rewritten afterwards — any recorded owner
survives every further valid operation unchanged — and freeing any
outstanding pointer pushes its block onto the free list of exactly the class
recorded at carve time. -/
theorem c10_owner_write_once (cfg : Config) (hcfg : cfg.WF) (ops₁ ops₂ : List Op)
    (hv : validTrace cfg (readyState cfg) (ops₁ ++ ops₂) = true) :
    (∀ a c, List.lookup a (runOps cfg (readyState cfg) ops₁).owner = some c →
      List.lookup a (runOps cfg (readyState cfg) (ops₁ ++ ops₂)).owner = some c) ∧
    (∀ p c, (p, c) ∈ (runOps cfg (readyState cfg) (ops₁ ++ ops₂)).live →
      List.lookup (p - heapSTRUCT_SIZE cfg)
          (runOps cfg (readyState cfg) (ops₁ ++ ops₂)).owner = some c ∧
      ((vPortFree cfg (runOps cfg (readyState cfg) (ops₁ ++ ops₂))
          (some p)).state.xPool.getD c default).pxFirstFree.head? =
        some (p - heapSTRUCT_SIZE cfg)) := by
  have hvsplit := hv
  rw [validTrace_append, Bool.and_eq_true] at hvsplit
  have hI₁ := Inv_runOps hcfg ops₁ (readyState cfg) (Inv_readyState cfg hcfg) hvsplit.1
  have hIfull := Inv_runOps hcfg (ops₁ ++ ops₂) (readyState cfg)
    (Inv_readyState cfg hcfg) hv
  constructor
  · intro a c h
    rw [runOps_append]
    exact owner_runOps_mono hcfg ops₂ _ hI₁ hvsplit.2 a c h
  · intro p c hm
    obtain ⟨hhs, hal, hlook, hc10⟩ := hIfull.liveOwner p c hm
    refine ⟨hlook, ?_⟩
    rw [free_some hlook]
    have hclen : c < (runOps cfg (readyState cfg) (ops₁ ++ ops₂)).xPool.length := by
      rw [hIfull.poolLength]
      exact hc10
    show (((runOps cfg (readyState cfg) (ops₁ ++ ops₂)).xPool.set c _).getD c
        default).pxFirstFree.head? = _
    rw [getD_set_self hclen]
    simp

theorem c10_owner_write_once_witness :
    List.lookup 8 (runOps cfgA (readyState cfgA)
      ([Op.alloc 100] ++ [Op.free 16, Op.alloc 90])).owner = some 0 := by
  have h := c10_owner_write_once cfgA cfgA_WF [Op.alloc 100] [Op.free 16, Op.alloc 90]
    (by decide)
  exact h.1 8 0 (by decide)

theorem add_mod_zero {a b n : Nat} (ha : a % n = 0) (hb : b % n = 0) :
    (a + b) % n = 0 := by
  rw [Nat.add_mod, ha, hb]
  simp

/-- Claim C4: for a positive request no larger than the largest class
capacity (1000), on any invariant state whose advisory counter admits the
selected class's adjusted size, `pvPortMalloc` selects the first — the table
being ascending, the smallest — class whose block size is at least the
request, and returns a non-NULL pointer aligned to the configured boundary
whose payload capacity (the selected class's nominal block size) is at least
the requested size. -/
theorem c4_fit_allocation (cfg : Config) (s : HeapState) (sz : Nat) (_hcfg : cfg.WF)
    (hI : Inv cfg s) (hsz : 0 < sz) (hszle : sz ≤ 1000)
    (hadm : mallocAdj cfg s sz < s.xFreeBytesRemaining) :
    ∃ p, (pvPortMalloc cfg s sz).pvReturn = some p ∧
      p % cfg.align = 0 ∧
      sz ≤ xSizeList.getD (mallocIter cfg s sz) 0 ∧
      (∀ i, i < mallocIter cfg s sz → xSizeList.getD i 0 < sz) ∧
      (∀ i, i < heapMAXIMUM_POOL_NUM → sz ≤ xSizeList.getD i 0 →
        xSizeList.getD (mallocIter cfg s sz) 0 ≤ xSizeList.getD i 0) := by
  have hiter : mallocIter cfg s sz = (bestFit xSizeList 0 sz).1 := by
    simp [mallocIter, adjustWanted, hsz, hI.sizes]
  have hlt : mallocIter cfg s sz < s.xPool.length := by
    rcases bestFit_spec xSizeList 0 sz with ⟨-, hall⟩ | ⟨j, hj, heq, -, -⟩
    · rw [xSizeList_no_fit] at hall
      omega
    · rw [hI.poolLength, hiter, heq]
      simpa [xSizeList, heapMAXIMUM_POOL_NUM] using hj
  obtain ⟨hi10, hfit, hfirst, hadj⟩ := adjust_fit hI hsz hlt
  have hposadj : 0 < mallocAdj cfg s sz := by
    have := le_alignUp cfg (xSizeList.getD (mallocIter cfg s sz) 0 + heapSTRUCT_SIZE cfg)
    omega
  have hsmall : ∀ i, i < heapMAXIMUM_POOL_NUM → sz ≤ xSizeList.getD i 0 →
      xSizeList.getD (mallocIter cfg s sz) 0 ≤ xSizeList.getD i 0 := by
    intro i h10 hfi
    rcases Nat.lt_or_ge i (mallocIter cfg s sz) with hlt2 | hge
    · have := hfirst i hlt2
      omega
    · exact xSizeList_sorted _ hi10 i h10 hge
  cases hff : (s.xPool.getD (mallocIter cfg s sz) default).pxFirstFree with
  | cons b rest =>
      rw [malloc_reuse hI.hInit ⟨hposadj, hadm⟩ hlt hff]
      obtain ⟨-, hbal⟩ := hI.freeOwner _ hi10 b (by rw [hff]; exact List.mem_cons_self _ _)
      exact ⟨b + heapSTRUCT_SIZE cfg, rfl,
        add_mod_zero hbal (heapSTRUCT_SIZE_mod cfg), hfit, hfirst, hsmall⟩
  | nil =>
      rw [malloc_carve hI.hInit ⟨hposadj, hadm⟩ hlt hff]
      exact ⟨s.pxFreeHeap + heapSTRUCT_SIZE cfg, rfl,
        add_mod_zero hI.cursorAligned (heapSTRUCT_SIZE_mod cfg), hfit, hfirst, hsmall⟩

theorem c4_fit_allocation_witness :
    ∃ p, (pvPortMalloc cfgA (readyState cfgA) 42).pvReturn = some p ∧
      p % cfgA.align = 0 ∧
      42 ≤ xSizeList.getD (mallocIter cfgA (readyState cfgA) 42) 0 ∧
      (∀ i, i < mallocIter cfgA (readyState cfgA) 42 → xSizeList.getD i 0 < 42) ∧
      (∀ i, i < heapMAXIMUM_POOL_NUM → 42 ≤ xSizeList.getD i 0 →
        xSizeList.getD (mallocIter cfgA (readyState cfgA) 42) 0 ≤ xSizeList.getD i 0) :=
  c4_fit_allocation cfgA (readyState cfgA) 42 cfgA_WF (Inv_readyState cfgA cfgA_WF)
    (by decide) (by decide) (by decide)

/-- Claim C1, counterexample to the claim as stated: after eight allocations
of 100 bytes from a fresh 1008-byte arena the carve cursor stands at 904, so
the arena (ending at 1008) cannot fit another 112-byte adjusted block of
that class — yet the next class-100 allocation does not fail: it succeeds
(returning pointer 912) and moves the carve cursor to 1016, past the arena's
end, because the admission check consults only the advisory counter. -/
theorem c1_counterexample :
    arenaEnd cfgA < exhaustedState.pxFreeHeap + mallocAdj cfgA exhaustedState 100 ∧
    (pvPortMalloc cfgA exhaustedState 100).pvReturn = some 912 ∧
    arenaEnd cfgA < (pvPortMalloc cfgA exhaustedState 100).state.pxFreeHeap := by
  refine ⟨by decide, by decide, by decide⟩

/-- Claim C1 (amended): exhaustion is detected only through the advisory
counter, never against the arena's end.  An allocation resolving to a class
whose adjusted size has reached the advisory remaining counter fails and
changes no state, while in the same state an allocation resolving to a class
whose adjusted size is still strictly below the counter succeeds — even when
its carve crosses the arena's end, as the counterexample shows. -/
theorem c1_exhaustion_amended (cfg : Config) (s : HeapState) (sz₁ sz₂ : Nat)
    (hI : Inv cfg s) (hsz₂ : 0 < sz₂)
    (hfail : s.xFreeBytesRemaining ≤ mallocAdj cfg s sz₁)
    (hlt₂ : mallocIter cfg s sz₂ < s.xPool.length)
    (hok : mallocAdj cfg s sz₂ < s.xFreeBytesRemaining) :
    ((pvPortMalloc cfg s sz₁).pvReturn = none ∧ (pvPortMalloc cfg s sz₁).state = s) ∧
    ∃ p, (pvPortMalloc cfg s sz₂).pvReturn = some p := by
  constructor
  · have hno : ¬(0 < mallocAdj cfg s sz₁ ∧
        mallocAdj cfg s sz₁ < s.xFreeBytesRemaining) := by
      omega
    rw [malloc_not_admitted hI.hInit hno]
    exact ⟨rfl, rfl⟩
  · obtain ⟨hi10, hfit, -, hadj⟩ := adjust_fit hI hsz₂ hlt₂
    have hpos : 0 < mallocAdj cfg s sz₂ := by
      have := le_alignUp cfg (xSizeList.getD (mallocIter cfg s sz₂) 0 + heapSTRUCT_SIZE cfg)
      omega
    cases hff : (s.xPool.getD (mallocIter cfg s sz₂) default).pxFirstFree with
    | cons b rest =>
        rw [malloc_reuse hI.hInit ⟨hpos, hok⟩ hlt₂ hff]
        exact ⟨_, rfl⟩
    | nil =>
        rw [malloc_carve hI.hInit ⟨hpos, hok⟩ hlt₂ hff]
        exact ⟨_, rfl⟩

theorem c1_exhaustion_amended_witness :
    (pvPortMalloc cfgA (runOps cfgA (readyState cfgA) [Op.alloc 500]) 480).pvReturn =
      none ∧
    ∃ p, (pvPortMalloc cfgA (runOps cfgA (readyState cfgA) [Op.alloc 500]) 100).pvReturn =
      some p := by
  have hI : Inv cfgA (runOps cfgA (readyState cfgA) [Op.alloc 500]) :=
    Inv_runOps cfgA_WF [Op.alloc 500] (readyState cfgA) (Inv_readyState cfgA cfgA_WF)
      (by decide)
  have h := c1_exhaustion_amended cfgA (runOps cfgA (readyState cfgA) [Op.alloc 500])
    480 100 hI (by decide) (by decide) (by decide) (by decide)
  exact ⟨h.1.1, h.2⟩

/-- Claim C6: LIFO reuse.  If an allocation on an invariant state returns
pointer P, P is then freed, and a second positive request resolving to the
same class is made, the second allocation returns exactly P and does not
advance the arena carve cursor. -/
theorem c6_lifo_reuse (cfg : Config) (s : HeapState) (sz₁ sz₂ P : Nat)
    (hcfg : cfg.WF) (hI : Inv cfg s)
    (hP : (pvPortMalloc cfg s sz₁).pvReturn = some P)
    (hsz₂ : 0 < sz₂)
    (hsame :
      mallocIter cfg (vPortFree cfg (pvPortMalloc cfg s sz₁).state (some P)).state sz₂ =
        mallocIter cfg s sz₁) :
    (pvPortMalloc cfg
        (vPortFree cfg (pvPortMalloc cfg s sz₁).state (some P)).state sz₂).pvReturn =
      some P ∧
    (pvPortMalloc cfg
        (vPortFree cfg (pvPortMalloc cfg s sz₁).state (some P)).state sz₂).state.pxFreeHeap =
      (vPortFree cfg (pvPortMalloc cfg s sz₁).state (some P)).state.pxFreeHeap := by
  obtain ⟨hub, hhsP, hlive, hlook, hrem, hpos₁, hadm₁, hi10⟩ := malloc_success hI hP
  have hI₁ : Inv cfg (pvPortMalloc cfg s sz₁).state := Inv_malloc hcfg hI hub
  have hmem : (P, mallocIter cfg s sz₁) ∈ (pvPortMalloc cfg s sz₁).state.live := by
    rw [hlive]
    exact List.mem_cons_self _ _
  have hI₂ : Inv cfg (vPortFree cfg (pvPortMalloc cfg s sz₁).state (some P)).state :=
    (Inv_free hI₁ hmem).1
  have hitlen : mallocIter cfg s sz₁ < (pvPortMalloc cfg s sz₁).state.xPool.length := by
    rw [hI₁.poolLength]
    exact hi10
  have hx₂ : (vPortFree cfg (pvPortMalloc cfg s sz₁).state (some P)).state.xPool =
      (pvPortMalloc cfg s sz₁).state.xPool.set (mallocIter cfg s sz₁)
        { (pvPortMalloc cfg s sz₁).state.xPool.getD (mallocIter cfg s sz₁) default with
          pxFirstFree := (P - heapSTRUCT_SIZE cfg) ::
            ((pvPortMalloc cfg s sz₁).state.xPool.getD (mallocIter cfg s sz₁)
              default).pxFirstFree } := by
    rw [free_some hlook]
  have hrem₂ : (vPortFree cfg (pvPortMalloc cfg s sz₁).state (some P)).state.xFreeBytesRemaining =
      (pvPortMalloc cfg s sz₁).state.xFreeBytesRemaining +
        ((pvPortMalloc cfg s sz₁).state.xPool.getD (mallocIter cfg s sz₁)
          default).xBlockSize := by
    rw [free_some hlook]
  have hsz₁ : 0 < sz₁ := mallocAdj_pos_sz hpos₁
  have hlt₁ : mallocIter cfg s sz₁ < s.xPool.length := by
    rw [hI.poolLength]
    exact hi10
  obtain ⟨-, hfit₁, -, hadj₁⟩ := adjust_fit hI hsz₁ hlt₁
  have hlt₂ :
      mallocIter cfg (vPortFree cfg (pvPortMalloc cfg s sz₁).state (some P)).state sz₂ <
        (vPortFree cfg (pvPortMalloc cfg s sz₁).state (some P)).state.xPool.length := by
    rw [hsame, hI₂.poolLength]
    exact hi10
  obtain ⟨-, -, -, hadj₂⟩ := adjust_fit hI₂ hsz₂ hlt₂
  have hw : mallocAdj cfg (vPortFree cfg (pvPortMalloc cfg s sz₁).state (some P)).state sz₂ =
      mallocAdj cfg s sz₁ := by
    rw [hadj₂, hadj₁, hsame]
  have hbs₁ : ((pvPortMalloc cfg s sz₁).state.xPool.getD (mallocIter cfg s sz₁)
      default).xBlockSize = xSizeList.getD (mallocIter cfg s sz₁) 0 := hI₁.blockSize _
  have hbs_le : xSizeList.getD (mallocIter cfg s sz₁) 0 ≤ mallocAdj cfg s sz₁ := by
    rw [hadj₁]
    exact le_trans (Nat.le_add_right _ _) (le_alignUp cfg _)
  have hremS :
      (vPortFree cfg (pvPortMalloc cfg s sz₁).state (some P)).state.xFreeBytesRemaining =
        s.xFreeBytesRemaining := by
    rw [hrem₂, hrem, hbs₁]
    omega
  have hadm₂ :
      0 < mallocAdj cfg (vPortFree cfg (pvPortMalloc cfg s sz₁).state (some P)).state sz₂ ∧
      mallocAdj cfg (vPortFree cfg (pvPortMalloc cfg s sz₁).state (some P)).state sz₂ <
        (vPortFree cfg (pvPortMalloc cfg s sz₁).state (some P)).state.xFreeBytesRemaining := by
    rw [hw, hremS]
    exact ⟨hpos₁, hadm₁⟩
  have hff₂ :
      ((vPortFree cfg (pvPortMalloc cfg s sz₁).state (some P)).state.xPool.getD
        (mallocIter cfg (vPortFree cfg (pvPortMalloc cfg s sz₁).state (some P)).state sz₂)
        default).pxFirstFree =
      (P - heapSTRUCT_SIZE cfg) ::
        ((pvPortMalloc cfg s sz₁).state.xPool.getD (mallocIter cfg s sz₁)
          default).pxFirstFree := by
    rw [hsame, hx₂, getD_set_self hitlen]
  rw [malloc_reuse hI₂.hInit hadm₂ hlt₂ hff₂]
  refine ⟨?_, rfl⟩
  show some (P - heapSTRUCT_SIZE cfg + heapSTRUCT_SIZE cfg) = some P
  rw [Nat.sub_add_cancel hhsP]

theorem c6_lifo_reuse_witness :
    (pvPortMalloc cfgA
        (vPortFree cfgA (pvPortMalloc cfgA (readyState cfgA) 42).state (some 16)).state
        90).pvReturn = some 16 ∧
    (pvPortMalloc cfgA
        (vPortFree cfgA (pvPortMalloc cfgA (readyState cfgA) 42).state (some 16)).state
        90).state.pxFreeHeap =
      (vPortFree cfgA (pvPortMalloc cfgA (readyState cfgA) 42).state (some 16)).state.pxFreeHeap :=
  c6_lifo_reuse cfgA (readyState cfgA) 42 90 16 cfgA_WF (Inv_readyState cfgA cfgA_WF)
    (by decide) (by decide) (by decide)

end HeapPool
